import Mathlib

/-!
Verification of the `npz-to-wct` command of `wirecell/ls4gan/__main__.py`.

The command reads a numpy archive of 3-D arrays, and for each array:
transposes it on request, validates that it is 3-dimensional, slices each
of the three plane columns by a configured row range and stacks the slices,
resolves channel IDs from a textual specification, applies the linear
transform `(x + baseline) * scale` with a dtype cast, and accumulates
`frame_`/`channels_`/`tickinfo_` entries; finally it creates the output
directory and writes a single `.npz` archive.

Modelling conventions:
* numpy floating-point samples are idealized as rationals `ℚ`; the claims
  under study are structural (which formula is computed), not about IEEE
  rounding;
* a numpy float-to-integer cast truncates toward zero and wraps to the
  target width;
* `numpy.load` and the units parser `unitify` (external collaborators from
  `wirecell.util`, not part of the converted source) are oracles supplied
  in an `Env`;
* the `os` filesystem calls are modelled by their documented Python
  semantics: `os.path.dirname` keeps everything before the last slash,
  `os.path.exists ""` is `False`, and `os.makedirs ""` raises
  `FileNotFoundError`; creation of a genuinely missing directory succeeds.
-/

/-- A numpy array of dimension 1, 2 or 3 with rational samples.  Input
arrays to `npz-to-wct` are expected to be 3-D `(rows, ticks, plane(3))`. -/
inductive NDArray where
  | d1 : List ℚ → NDArray
  | d2 : List (List ℚ) → NDArray
  | d3 : List (List (List ℚ)) → NDArray
deriving DecidableEq

/-- `len(arr.shape)`. -/
def NDArray.ndim : NDArray → Nat
  | .d1 _ => 1
  | .d2 _ => 2
  | .d3 _ => 3

/-- Element access in a 3-D nested list with default `0`. -/
def cell3 (d : List (List (List ℚ))) (i j k : Nat) : ℚ :=
  ((d.getD i []).getD j []).getD k 0

/-- `arr.shape` as a list of dimension sizes (rectangular arrays). -/
def NDArray.shape : NDArray → List Nat
  | .d1 xs => [xs.length]
  | .d2 m => [m.length, (m.headD []).length]
  | .d3 d => [d.length, (d.headD []).length, ((d.headD []).headD []).length]

/-- Transpose of a 2-D array. -/
def transpose2 (m : List (List ℚ)) : List (List ℚ) :=
  (List.range (m.headD []).length).map fun j =>
    (List.range m.length).map fun i => (m.getD i []).getD j 0

/-- Transpose of a 3-D array: full axis reversal, as `numpy.ndarray.T`. -/
def transpose3 (d : List (List (List ℚ))) : List (List (List ℚ)) :=
  (List.range ((d.headD []).headD []).length).map fun k =>
    (List.range (d.headD []).length).map fun j =>
      (List.range d.length).map fun i => cell3 d i j k

/-- `arr.T`: reverse the axis order (identity on 1-D arrays). -/
def NDArray.t : NDArray → NDArray
  | .d1 xs => .d1 xs
  | .d2 m => .d2 (transpose2 m)
  | .d3 d => .d3 (transpose3 d)

/-- The array actually processed: `arr.T` when the transpose flag is set. -/
def effArr (tr : Bool) (a : NDArray) : NDArray :=
  if tr then a.t else a

/-- Python list slicing `xs[lo:hi]` with sign handling and clamping. -/
def pySlice {α : Type} (lo hi : Int) (xs : List α) : List α :=
  let n : Int := xs.length
  let lo2 : Int := if lo < 0 then max (n + lo) 0 else min lo n
  let hi2 : Int := if hi < 0 then max (n + hi) 0 else min hi n
  (xs.drop lo2.toNat).take (hi2 - lo2).toNat

/-- The six range bounds `ubeg uend vbeg vend wbeg wend` of `--ranges`. -/
structure Ranges where
  r0 : Int
  r1 : Int
  r2 : Int
  r3 : Int
  r4 : Int
  r5 : Int
deriving DecidableEq

/-- `arr[lo:hi, :, p]`: row-slice the 3-D array and project plane `p`. -/
def planeSlice (lo hi : Int) (p : Nat) (d : List (List (List ℚ))) :
    List (List ℚ) :=
  (pySlice lo hi d).map fun row => row.map fun tick => tick.getD p 0

/-- Line 89 of the source: `numpy.vstack` of the three plane slices. -/
def stackPlanes (r : Ranges) (d : List (List (List ℚ))) : List (List ℚ) :=
  planeSlice r.r0 r.r1 0 d ++ planeSlice r.r2 r.r3 1 d ++ planeSlice r.r4 r.r5 2 d

/-- The sum of the three configured range widths. -/
def sumWidths (r : Ranges) : Int :=
  (r.r1 - r.r0) + (r.r3 - r.r2) + (r.r5 - r.r4)

/-- Python `s.isdigit()`: nonempty and all digits. -/
def pyIsDigit (s : String) : Bool :=
  !s.data.isEmpty && s.data.all Char.isDigit

/-- Python `c in s` for a single character. -/
def pyHasChar (s : String) (c : Char) : Bool :=
  s.data.any fun a => a == c

/-- Whether the first list starts the second. -/
def isPre : List Char → List Char → Bool
  | [], _ => true
  | _ :: _, [] => false
  | a :: as, b :: bs => a == b && isPre as bs

/-- Whether `nee` occurs as a contiguous sublist. -/
def hasSub (nee : List Char) : List Char → Bool
  | [] => nee.isEmpty
  | c :: rest => isPre nee (c :: rest) || hasSub nee rest

/-- Python substring containment `sub in s`. -/
def pyHasSub (s sub : String) : Bool :=
  hasSub sub.data s.data

/-- Python `s.endswith(suf)`. -/
def pyEndsWith (s suf : String) : Bool :=
  isPre suf.data.reverse s.data.reverse

/-- `int(s)` for a digit string. -/
def pyParseNat (s : String) : Nat :=
  s.data.foldl (fun a c => a * 10 + (c.toNat - 48)) 0

/-- Python `s.split(":", 1)`; the code only reaches it when a colon exists. -/
def pySplitColon (s : String) : String × String :=
  let rec go : List Char → Option (List Char × List Char)
    | [] => none
    | a :: rest =>
        if a == ':' then some ([], rest)
        else (go rest).map fun p => (a :: p.1, p.2)
  match go s.data with
  | some (a, b) => (⟨a⟩, ⟨b⟩)
  | none => (s, "")

/-- Truncation of a rational toward zero, as a C float-to-int cast. -/
def ratTrunc (q : ℚ) : Int :=
  if 0 ≤ q.num then ((q.num.toNat / q.den : Nat) : Int)
  else -((((-q.num).toNat / q.den : Nat) : Int))

/-- Wrap an integer into the signed range of width `w` bits. -/
def wrapMod (w : Nat) (z : Int) : Int :=
  (z + 2 ^ (w - 1)).emod (2 ^ w) - 2 ^ (w - 1)

/-- numpy cast of a float sample to `i2` (int16). -/
def castI2q (q : ℚ) : Int := wrapMod 16 (ratTrunc q)

/-- numpy cast of a float sample to `i4` (int32). -/
def castI4q (q : ℚ) : Int := wrapMod 32 (ratTrunc q)

/-- The two admissible `--dtype` values. -/
inductive Dtype where
  | i2 : Dtype
  | f4 : Dtype
deriving DecidableEq

/-- Line 119's elementwise cast: `i2` truncates and wraps, `f4` keeps the
idealized real value. -/
def castD : Dtype → ℚ → ℚ
  | .i2, q => ((castI2q q : Int) : ℚ)
  | .f4, q => q

/-- Exceptions the command can raise. -/
inductive PyErr where
  | badParameter : String → PyErr
  | attributeError : String → PyErr
  | fileNotFound : String → PyErr
deriving DecidableEq

/-- Whether an error is a `click.BadParameter`. -/
def PyErr.isBadParam : PyErr → Bool
  | .badParameter _ => true
  | _ => false

/-- A value stored in the accumulated output mapping. -/
inductive OutVal where
  | frame : List (List ℚ) → OutVal
  | chans : List Int → OutVal
  | tinfo : List ℚ → OutVal
deriving DecidableEq

/-- The Python variable `channels` across loop iterations: either still the
textual specification from the command line, or the `i4` numpy array it was
replaced by at line 114. -/
inductive ChanVal where
  | spec : Option String → ChanVal
  | resolved : List Int → ChanVal
deriving DecidableEq

/-- Oracles for the external collaborators (`wirecell.util.functions.unitify`
and `numpy.load`), which are black boxes per the specification. -/
structure Env where
  unitify : String → List ℚ
  loadNpyInts : String → List Int
  loadNpzInts : String → String → List Int

/-- All command options (the CLI surface of `npz-to-wct`). -/
structure Config where
  transpose : Bool
  output : String
  name : String
  ranges : Ranges
  tinfo : String
  baseline : ℚ
  scale : ℚ
  dtype : Dtype
  channels : Option String
  event : Int
  compress : Bool
  npzfile : String

/-- Mutable loop state: the `channels` variable and the event counter. -/
structure LoopState where
  chan : ChanVal
  event : Int
deriving DecidableEq

/-- Lines 95-112: resolve the channel-ID list for the current array.  A
previously resolved numpy array has no `isdigit` attribute, so reaching the
second branch with it raises `AttributeError`. -/
def resolveChans (env : Env) (cv : ChanVal) (nchans : Nat) :
    Except PyErr (List ℚ) :=
  match cv with
  | .resolved _ =>
      .error (.attributeError
        "\x27numpy.ndarray\x27 object has no attribute \x27isdigit\x27")
  | .spec none => .ok ((List.range nchans).map fun (i : ℕ) => (i : ℚ))
  | .spec (some s) =>
      if pyIsDigit s then
        .ok ((List.range nchans).map fun i => ((pyParseNat s + i : ℕ) : ℚ))
      else if pyHasChar s ',' then
        let cs := env.unitify s
        if cs.length ≠ nchans then
          .error (.badParameter ("input array has " ++ toString nchans ++
            " channels but given " ++ toString cs.length ++ " channels"))
        else .ok cs
      else if pyEndsWith s ".npy" then
        .ok ((env.loadNpyInts s).map fun z => (z : ℚ))
      else if pyHasSub s ".npz:" then
        let p := pySplitColon s
        .ok ((env.loadNpzInts p.1 p.2).map fun z => (z : ℚ))
      else
        .error (.badParameter ("unsupported form for channels: " ++ s))

/-- The message of the line-87 shape error. -/
def wrongShapeMsg (aname : String) (a : NDArray) : String :=
  "input array " ++ aname ++ " wrong shape: " ++ toString a.shape

/-- Lines 84-121: process one named array, producing its three output
entries and the updated loop state. -/
def processArray (env : Env) (cfg : Config) (st : LoopState)
    (aname : String) (arr0 : NDArray) :
    Except PyErr (List (String × OutVal) × LoopState) :=
  match effArr cfg.transpose arr0 with
  | .d3 d =>
      let stacked := stackPlanes cfg.ranges d
      let nchans := stacked.length
      match resolveChans env st.chan nchans with
      | .error e => .error e
      | .ok raw =>
          let chans := raw.map castI4q
          let label := cfg.name ++ "_" ++ toString st.event
          let F := stacked.map fun row =>
            row.map fun x => castD cfg.dtype ((x + cfg.baseline) * cfg.scale)
          .ok ([("frame_" ++ label, .frame F),
                ("channels_" ++ label, .chans chans),
                ("tickinfo_" ++ label, .tinfo (env.unitify cfg.tinfo))],
               ⟨.resolved chans, st.event + 1⟩)
  | a => .error (.badParameter (wrongShapeMsg aname a))

/-- Observable side effects of a run. -/
inductive Event where
  | progressLine : String → Event
  | mkdir : String → Event
  | writeArchive : String → Bool → List (String × OutVal) → Event

/-- The loop state before the first array. -/
def initState (cfg : Config) : LoopState :=
  ⟨.spec cfg.channels, cfg.event⟩

/-- Lines 81-121: the per-array loop, accumulating output entries in order
and aborting on the first exception. -/
def runLoop (env : Env) (cfg : Config) :
    LoopState → List (String × NDArray) →
    List Event × Except PyErr (List (String × OutVal))
  | _, [] => ([], .ok [])
  | st, (an, a) :: rest =>
      let ev := Event.progressLine ("processing " ++ cfg.npzfile)
      match processArray env cfg st an a with
      | .error e => ([ev], .error e)
      | .ok (outs, st') =>
          let r := runLoop env cfg st' rest
          (ev :: r.1, r.2.map fun os => outs ++ os)

/-- `os.path.dirname` (posix): everything up to the last slash, trailing
slashes stripped unless the head is all slashes. -/
def pyDirname (p : String) : String :=
  let rev := p.data.reverse
  let revHead := rev.dropWhile fun c => c ≠ '/'
  if revHead.isEmpty then ""
  else if revHead.all fun c => c = '/' then ⟨revHead.reverse⟩
  else ⟨(revHead.dropWhile fun c => c = '/').reverse⟩

/-- `os.path.exists` against the filesystem oracle; the empty path never
exists. -/
def pyExists (fs : String → Bool) (s : String) : Bool :=
  if s = "" then false else fs s

/-- `os.makedirs`: fails with `FileNotFoundError` on the empty path,
otherwise creates the missing directory. -/
def pyMakedirs (d : String) : Except PyErr Unit :=
  if d = "" then .error (.fileNotFound d) else .ok ()

/-- Lines 74-132: the whole command body, from the per-array loop through
directory creation and the final archive write.  Returns the event trace
and the raised exception, if any. -/
def npz_to_wct (env : Env) (fs : String → Bool) (cfg : Config)
    (arrays : List (String × NDArray)) : List Event × Option PyErr :=
  let lr := runLoop env cfg (initState cfg) arrays
  match lr.2 with
  | .error e => (lr.1, some e)
  | .ok outs =>
      let od := pyDirname cfg.output
      let dirPhase : List Event × Option PyErr :=
        if pyExists fs od then ([], none)
        else
          match pyMakedirs od with
          | .error e => ([], some e)
          | .ok _ => ([Event.mkdir od], none)
      match dirPhase.2 with
      | some e => (lr.1 ++ dirPhase.1, some e)
      | none =>
          if pyEndsWith cfg.output ".npz" then
            (lr.1 ++ dirPhase.1 ++
              [Event.writeArchive cfg.output cfg.compress outs], none)
          else
            (lr.1 ++ dirPhase.1,
             some (.badParameter ("unsupported output file type: " ++ cfg.output)))

instance exceptDecEq {ε α : Type} [DecidableEq ε] [DecidableEq α] :
    DecidableEq (Except ε α)
  | .error a, .error b =>
      if h : a = b then .isTrue (by rw [h]) else .isFalse (by simp [h])
  | .error _, .ok _ => .isFalse (by simp)
  | .ok _, .error _ => .isFalse (by simp)
  | .ok a, .ok b =>
      if h : a = b then .isTrue (by rw [h]) else .isFalse (by simp [h])

/-- Whether the trace contains an archive write. -/
def hasWrite (evs : List Event) : Bool :=
  evs.any fun e =>
    match e with
    | .writeArchive _ _ _ => true
    | _ => false

/-! ## Helper lemmas -/

theorem length_pySlice_exact {α : Type} (lo hi : Int) (xs : List α)
    (h0 : 0 ≤ lo) (h01 : lo ≤ hi) (h1 : hi ≤ (xs.length : Int)) :
    ((pySlice lo hi xs).length : Int) = hi - lo := by
  dsimp only [pySlice]
  simp only [List.length_take, List.length_drop]
  split_ifs <;> omega

theorem length_pySlice_le {α : Type} (lo hi : Int) (xs : List α)
    (h0 : 0 ≤ lo) (h01 : lo ≤ hi) :
    ((pySlice lo hi xs).length : Int) ≤ hi - lo := by
  dsimp only [pySlice]
  simp only [List.length_take, List.length_drop]
  split_ifs <;> omega

theorem length_pySlice_lt {α : Type} (lo hi : Int) (xs : List α)
    (h0 : 0 ≤ lo) (hlt : lo < hi) (hn : (xs.length : Int) < hi) :
    ((pySlice lo hi xs).length : Int) < hi - lo := by
  dsimp only [pySlice]
  simp only [List.length_take, List.length_drop]
  split_ifs <;> omega

theorem getD_map_of_lt {α β : Type} (f : α → β) :
    ∀ (l : List α) (i : Nat), i < l.length → ∀ (d : β) (d' : α),
      (l.map f).getD i d = f (l.getD i d')
  | _ :: _, 0, _, _, _ => rfl
  | _ :: l, i + 1, h, d, d' => getD_map_of_lt f l i (by simpa using h) d d'

theorem length_planeSlice_exact (lo hi : Int) (p : Nat)
    (d : List (List (List ℚ)))
    (h0 : 0 ≤ lo) (h01 : lo ≤ hi) (h1 : hi ≤ (d.length : Int)) :
    ((planeSlice lo hi p d).length : Int) = hi - lo := by
  simpa [planeSlice] using length_pySlice_exact lo hi d h0 h01 h1

/-! ## Claims -/

/-- C2: for a valid 3-D input array whose configured ranges lie within the
per-plane row count, the stacked frame is the vertical concatenation of the
range-selected plane slices in plane order 0,1,2, and its row count equals
`(r1-r0) + (r3-r2) + (r5-r4)`. -/
theorem C2_stacked_frame (d : List (List (List ℚ))) (r : Ranges)
    (h0 : 0 ≤ r.r0) (h01 : r.r0 ≤ r.r1) (h1 : r.r1 ≤ (d.length : Int))
    (h2 : 0 ≤ r.r2) (h23 : r.r2 ≤ r.r3) (h3 : r.r3 ≤ (d.length : Int))
    (h4 : 0 ≤ r.r4) (h45 : r.r4 ≤ r.r5) (h5 : r.r5 ≤ (d.length : Int)) :
    stackPlanes r d =
      planeSlice r.r0 r.r1 0 d ++ planeSlice r.r2 r.r3 1 d ++
        planeSlice r.r4 r.r5 2 d ∧
    ((stackPlanes r d).length : Int) = sumWidths r := by
  refine ⟨rfl, ?_⟩
  have e0 := length_planeSlice_exact r.r0 r.r1 0 d h0 h01 h1
  have e1 := length_planeSlice_exact r.r2 r.r3 1 d h2 h23 h3
  have e2 := length_planeSlice_exact r.r4 r.r5 2 d h4 h45 h5
  simp only [stackPlanes, List.length_append, sumWidths]
  push_cast
  omega

/-- Input used to instantiate the C2 theorem. -/
def c2D : List (List (List ℚ)) := List.replicate 2 [[0, 0, 0]]

/-- Ranges used to instantiate the C2 theorem. -/
def c2R : Ranges := ⟨0, 1, 0, 2, 1, 2⟩

theorem C2_stacked_frame_witness :
    stackPlanes c2R c2D =
      planeSlice c2R.r0 c2R.r1 0 c2D ++ planeSlice c2R.r2 c2R.r3 1 c2D ++
        planeSlice c2R.r4 c2R.r5 2 c2D ∧
    ((stackPlanes c2R c2D).length : Int) = sumWidths c2R :=
  C2_stacked_frame c2D c2R (by decide) (by decide) (by decide) (by decide)
    (by decide) (by decide) (by decide) (by decide) (by decide)

/-- C9 (amended): for a 3-D input array and non-negative ordered ranges,
when some plane's configured range end exceeds the array's row count and
that range has positive width, no error is raised — the slice is silently
clamped — and the stacked frame's row count is strictly less than the sum
of the three configured range widths. -/
theorem C9_clamped_rows (d : List (List (List ℚ))) (r : Ranges)
    (h0 : 0 ≤ r.r0) (h01 : r.r0 ≤ r.r1)
    (h2 : 0 ≤ r.r2) (h23 : r.r2 ≤ r.r3)
    (h4 : 0 ≤ r.r4) (h45 : r.r4 ≤ r.r5)
    (hdef : ((d.length : Int) < r.r1 ∧ r.r0 < r.r1) ∨
            ((d.length : Int) < r.r3 ∧ r.r2 < r.r3) ∨
            ((d.length : Int) < r.r5 ∧ r.r4 < r.r5)) :
    ((stackPlanes r d).length : Int) < sumWidths r := by
  have l0 := length_pySlice_le r.r0 r.r1 d h0 h01
  have l1 := length_pySlice_le r.r2 r.r3 d h2 h23
  have l2 := length_pySlice_le r.r4 r.r5 d h4 h45
  have key : ((pySlice r.r0 r.r1 d).length : Int) +
      ((pySlice r.r2 r.r3 d).length : Int) +
      ((pySlice r.r4 r.r5 d).length : Int) < sumWidths r := by
    rcases hdef with ⟨hn, hw⟩ | ⟨hn, hw⟩ | ⟨hn, hw⟩
    · have := length_pySlice_lt r.r0 r.r1 d h0 hw hn
      simp only [sumWidths]; omega
    · have := length_pySlice_lt r.r2 r.r3 d h2 hw hn
      simp only [sumWidths]; omega
    · have := length_pySlice_lt r.r4 r.r5 d h4 hw hn
      simp only [sumWidths]; omega
  simp only [stackPlanes, planeSlice, List.length_append, List.length_map]
  push_cast
  push_cast at key
  omega

theorem C9_clamped_rows_witness :
    ((stackPlanes ⟨0, 2, 0, 2, 0, 5⟩ c2D).length : Int) <
      sumWidths ⟨0, 2, 0, 2, 0, 5⟩ :=
  C9_clamped_rows c2D ⟨0, 2, 0, 2, 0, 5⟩ (by decide) (by decide) (by decide)
    (by decide) (by decide) (by decide) (Or.inr (Or.inr ⟨by decide, by decide⟩))

/-- Input refuting C9 as stated: 5 rows per plane, third range `[7:7)`. -/
def c9D : List (List (List ℚ)) := List.replicate 5 [[0, 0, 0]]

/-- Ranges refuting C9 as stated: the third range end 7 exceeds the row
count 5, but the range is empty. -/
def c9R : Ranges := ⟨0, 5, 0, 5, 7, 7⟩

theorem C9_counterexample :
    c9D.length = 5 ∧ (5 : Int) < c9R.r5 ∧
      ¬ ((stackPlanes c9R c9D).length : Int) < sumWidths c9R := by
  refine ⟨rfl, by decide, ?_⟩
  have h1 : (stackPlanes c9R c9D).length = 10 := by decide
  have h2 : sumWidths c9R = 10 := by decide
  rw [h1, h2]
  decide

/-- C7: an input array that is not 3-dimensional after the optional
transpose makes processing fail with a parameter error whose message
contains the array's name. -/
theorem C7_wrong_shape (env : Env) (cfg : Config) (st : LoopState)
    (aname : String) (a : NDArray)
    (h : (effArr cfg.transpose a).ndim ≠ 3) :
    ∃ m, processArray env cfg st aname a = .error (.badParameter m) ∧
      ∃ pre suf, m = pre ++ aname ++ suf := by
  cases heff : effArr cfg.transpose a with
  | d3 d => rw [heff] at h; exact absurd rfl h
  | d1 xs =>
      refine ⟨wrongShapeMsg aname (.d1 xs), ?_,
        "input array ", " wrong shape: " ++ toString (NDArray.d1 xs).shape, ?_⟩
      · simp [processArray, heff]
      · simp only [wrongShapeMsg, String.append_assoc]
  | d2 m =>
      refine ⟨wrongShapeMsg aname (.d2 m), ?_,
        "input array ", " wrong shape: " ++ toString (NDArray.d2 m).shape, ?_⟩
      · simp [processArray, heff]
      · simp only [wrongShapeMsg, String.append_assoc]

/-- An oracle environment whose external loads all return empty data. -/
def trivEnv : Env := ⟨fun _ => [], fun _ => [], fun _ _ => []⟩

/-- A small valid configuration shared by concrete instantiations. -/
def w1Cfg : Config :=
  { transpose := false, output := "d/o.npz", name := "x",
    ranges := ⟨0, 1, 0, 0, 0, 0⟩, tinfo := "0,0.5*us,0", baseline := 1,
    scale := 2, dtype := .i2, channels := none, event := 0,
    compress := true, npzfile := "in.npz" }

theorem C7_wrong_shape_witness :
    ∃ m, processArray trivEnv w1Cfg ⟨.spec none, 0⟩ "bad" (.d2 [[1]]) =
        .error (.badParameter m) ∧ ∃ pre suf, m = pre ++ "bad" ++ suf :=
  C7_wrong_shape trivEnv w1Cfg ⟨.spec none, 0⟩ "bad" (.d2 [[1]]) (by decide)

/-- C1: every sample of the output `frame_*` entry equals the corresponding
sample of the stacked input array, offset by the baseline, multiplied by the
scale, and cast into the requested output sample type:
`output = cast((input + b) * s)`. -/
theorem C1_linear_transform (env : Env) (cfg : Config) (st : LoopState)
    (aname : String) (a : NDArray) (d : List (List (List ℚ)))
    (outs : List (String × OutVal)) (st' : LoopState) (F : List (List ℚ))
    (heff : effArr cfg.transpose a = .d3 d)
    (hok : processArray env cfg st aname a = .ok (outs, st'))
    (hF : List.lookup ("frame_" ++ (cfg.name ++ "_" ++ toString st.event))
        outs = some (.frame F))
    (i j : Nat) (hi : i < F.length) (hj : j < (F.getD i []).length) :
    (F.getD i []).getD j 0 =
      castD cfg.dtype
        ((((stackPlanes cfg.ranges d).getD i []).getD j 0 + cfg.baseline) *
          cfg.scale) := by
  simp only [processArray, heff] at hok
  cases hres : resolveChans env st.chan (stackPlanes cfg.ranges d).length with
  | error e => rw [hres] at hok; simp at hok
  | ok raw =>
      rw [hres] at hok
      simp only [Except.ok.injEq, Prod.mk.injEq] at hok
      obtain ⟨houts, -⟩ := hok
      subst houts
      simp only [List.lookup, beq_self_eq_true, Option.some.injEq,
        OutVal.frame.injEq] at hF
      subst hF
      have hi' : i < (stackPlanes cfg.ranges d).length := by
        simpa using hi
      rw [getD_map_of_lt _ _ _ hi' _ []] at hj ⊢
      have hj' : j < ((stackPlanes cfg.ranges d).getD i []).length := by
        simpa using hj
      rw [getD_map_of_lt _ _ _ hj' _ 0]

/-- Input used to instantiate the C1 theorem. -/
def w1D : List (List (List ℚ)) := [[[3, 5, 7]]]

/-- The frame entry computed for the C1 witness input. -/
def w1F : List (List ℚ) :=
  (stackPlanes w1Cfg.ranges w1D).map fun row =>
    row.map fun x => castD w1Cfg.dtype ((x + w1Cfg.baseline) * w1Cfg.scale)

/-- The channel entry computed for the C1 witness input. -/
def w1C : List Int :=
  ((List.range (stackPlanes w1Cfg.ranges w1D).length).map
    fun (i : ℕ) => (i : ℚ)).map castI4q

theorem C1_linear_transform_witness :
    (w1F.getD 0 []).getD 0 0 =
      castD w1Cfg.dtype
        ((((stackPlanes w1Cfg.ranges w1D).getD 0 []).getD 0 0 +
          w1Cfg.baseline) * w1Cfg.scale) :=
  C1_linear_transform trivEnv w1Cfg ⟨.spec none, 0⟩ "a" (.d3 w1D) w1D
    [("frame_" ++ (w1Cfg.name ++ "_" ++ toString (0 : Int)), .frame w1F),
     ("channels_" ++ (w1Cfg.name ++ "_" ++ toString (0 : Int)), .chans w1C),
     ("tickinfo_" ++ (w1Cfg.name ++ "_" ++ toString (0 : Int)),
      .tinfo (trivEnv.unitify w1Cfg.tinfo))]
    ⟨.resolved w1C, 0 + 1⟩ w1F rfl rfl rfl 0 0 (by decide) (by decide)

/-- C5: on the first processed array with N rows, an unspecified channel
specification resolves to the IDs `0..N-1`, and a bare digit string `K`
resolves to `K..K+N-1`. -/
theorem C5_first_array_ids (env : Env) (n : Nat) :
    (∃ ids, resolveChans env (.spec none) n = .ok ids ∧ ids.length = n ∧
        ∀ (i : Nat), (h : i < ids.length) → ids[i] = (i : ℚ)) ∧
    (∀ s : String, pyIsDigit s = true →
      ∃ ids, resolveChans env (.spec (some s)) n = .ok ids ∧ ids.length = n ∧
        ∀ (i : Nat), (h : i < ids.length) →
          ids[i] = ((pyParseNat s + i : ℕ) : ℚ)) := by
  constructor
  · refine ⟨(List.range n).map fun (i : ℕ) => (i : ℚ), rfl, ?_, ?_⟩
    · rw [List.length_map, List.length_range]
    · intro i h
      simp only [List.getElem_map, List.getElem_range]
  · intro s hs
    have e : resolveChans env (.spec (some s)) n =
        .ok ((List.range n).map fun i => ((pyParseNat s + i : ℕ) : ℚ)) := by
      simp [resolveChans, hs]
    refine ⟨_, e, ?_, ?_⟩
    · rw [List.length_map, List.length_range]
    · intro i h
      simp only [List.getElem_map, List.getElem_range]

theorem C5_first_array_ids_witness :
    ∃ ids, resolveChans trivEnv (.spec (some "7")) 2 = .ok ids ∧
      ids.length = 2 ∧
      ∀ (i : Nat), (h : i < ids.length) →
        ids[i] = ((pyParseNat "7" + i : ℕ) : ℚ) :=
  (C5_first_array_ids trivEnv 2).2 "7" (by decide)

theorem string_data_append (a b : String) : (a ++ b).data = a.data ++ b.data :=
  match a, b with
  | ⟨_⟩, ⟨_⟩ => rfl

theorem channels_frame_key_ne (x : String) :
    (("channels_" ++ x) == ("frame_" ++ x)) = false := by
  apply beq_eq_false_iff_ne.mpr
  intro h
  have h2 : ("channels_" ++ x).data = ("frame_" ++ x).data := by rw [h]
  rw [string_data_append, string_data_append] at h2
  have h3 : "channels_".data = "frame_".data := List.append_cancel_right h2
  simp at h3

/-- C3 (amended): for the unspecified, bare-integer and comma-list channel
forms, the written `channels_*` entry has exactly as many entries as the
`frame_*` entry has rows; the file-loaded forms are not length-checked. -/
theorem C3_channel_length (env : Env) (cfg : Config) (st : LoopState)
    (aname : String) (a : NDArray) (outs : List (String × OutVal))
    (st' : LoopState)
    (hok : processArray env cfg st aname a = .ok (outs, st'))
    (hform : st.chan = .spec none ∨
      ∃ s, st.chan = .spec (some s) ∧
        (pyIsDigit s = true ∨ pyHasChar s ',' = true)) :
    ∃ F C,
      List.lookup ("frame_" ++ (cfg.name ++ "_" ++ toString st.event)) outs =
        some (.frame F) ∧
      List.lookup ("channels_" ++ (cfg.name ++ "_" ++ toString st.event)) outs
        = some (.chans C) ∧
      C.length = F.length := by
  cases heff : effArr cfg.transpose a with
  | d1 xs => simp [processArray, heff] at hok
  | d2 m => simp [processArray, heff] at hok
  | d3 d =>
    simp only [processArray, heff] at hok
    cases hres : resolveChans env st.chan (stackPlanes cfg.ranges d).length with
    | error e => rw [hres] at hok; simp at hok
    | ok raw =>
      rw [hres] at hok
      simp only [Except.ok.injEq, Prod.mk.injEq] at hok
      obtain ⟨houts, -⟩ := hok
      subst houts
      have hraw : raw.length = (stackPlanes cfg.ranges d).length := by
        rcases hform with hnone | ⟨s, hs, hsd⟩
        · rw [hnone] at hres
          simp only [resolveChans, Except.ok.injEq] at hres
          subst hres
          simp
        · rw [hs] at hres
          by_cases hdig : pyIsDigit s = true
          · simp only [resolveChans, hdig, if_true, Except.ok.injEq] at hres
            subst hres
            simp
          · have hcomma : pyHasChar s ',' = true := by
              rcases hsd with h | h
              · exact absurd h hdig
              · exact h
            by_cases hlen :
                (env.unitify s).length = (stackPlanes cfg.ranges d).length
            · simp only [resolveChans, hdig, hcomma, hlen, ne_eq,
                not_true_eq_false, if_false, if_true, Bool.false_eq_true,
                Except.ok.injEq] at hres
              subst hres
              exact hlen
            · simp [resolveChans, hdig, hcomma, hlen] at hres
      refine ⟨(stackPlanes cfg.ranges d).map (fun row =>
          row.map fun x => castD cfg.dtype ((x + cfg.baseline) * cfg.scale)),
        raw.map castI4q, ?_, ?_, ?_⟩
      · simp only [List.lookup, beq_self_eq_true]
      · simp only [List.lookup, channels_frame_key_ne, beq_self_eq_true]
      · simp [hraw]

/-- The output entry list computed for the witness input. -/
def w1Outs : List (String × OutVal) :=
  [("frame_" ++ (w1Cfg.name ++ "_" ++ toString (0 : Int)), .frame w1F),
   ("channels_" ++ (w1Cfg.name ++ "_" ++ toString (0 : Int)), .chans w1C),
   ("tickinfo_" ++ (w1Cfg.name ++ "_" ++ toString (0 : Int)),
    .tinfo (trivEnv.unitify w1Cfg.tinfo))]

theorem C3_channel_length_witness :
    ∃ F C,
      List.lookup ("frame_" ++ (w1Cfg.name ++ "_" ++ toString (0 : Int)))
        w1Outs = some (.frame F) ∧
      List.lookup ("channels_" ++ (w1Cfg.name ++ "_" ++ toString (0 : Int)))
        w1Outs = some (.chans C) ∧
      C.length = F.length :=
  C3_channel_length trivEnv w1Cfg ⟨.spec none, 0⟩ "a" (.d3 w1D) w1Outs
    ⟨.resolved w1C, 0 + 1⟩ rfl (Or.inl rfl)

/-- Row count of the frame entry stored under a key, when present. -/
def frameRowsAt (outs : List (String × OutVal)) (k : String) : Option Nat :=
  match List.lookup k outs with
  | some (.frame F) => some F.length
  | _ => none

/-- Length of the channels entry stored under a key, when present. -/
def chanLenAt (outs : List (String × OutVal)) (k : String) : Option Nat :=
  match List.lookup k outs with
  | some (.chans C) => some C.length
  | _ => none

/-- Oracle whose `.npy` load yields a 2-element channel list. -/
def c3Env : Env := ⟨fun _ => [], fun _ => [1, 2], fun _ _ => []⟩

/-- A 3-row input array (3 rows, 1 tick, 3 planes). -/
def c3D : List (List (List ℚ)) := List.replicate 3 [[0, 0, 0]]

/-- Configuration selecting all 3 rows of plane 0 and a `.npy` channel
specification. -/
def c3Cfg : Config :=
  { w1Cfg with ranges := ⟨0, 3, 0, 0, 0, 0⟩, channels := some "c.npy" }

theorem C3_counterexample :
    (processArray c3Env c3Cfg ⟨.spec (some "c.npy"), 0⟩ "a"
        (.d3 c3D)).toOption.map
      (fun r => (chanLenAt r.1 "channels_x_0", frameRowsAt r.1 "frame_x_0")) =
      some (some 2, some 3) := by decide

/-- C4: with two arrays in the archive and channels unspecified, the second
iteration calls `.isdigit()` on the numpy array that replaced the channel
specification, raising `AttributeError` instead of re-deriving sequential
IDs from the second array's row count. -/
theorem C4_second_array_attribute_error :
    (npz_to_wct trivEnv (fun _ => true) w1Cfg
        [("a", .d3 w1D), ("b", .d3 w1D)]).2 =
      some (.attributeError
        "\x27numpy.ndarray\x27 object has no attribute \x27isdigit\x27") := by
  decide

theorem runLoop_no_write (env : Env) (cfg : Config) :
    ∀ (st : LoopState) (arrays : List (String × NDArray)),
      hasWrite (runLoop env cfg st arrays).1 = false := by
  intro st arrays
  induction arrays generalizing st with
  | nil => rfl
  | cons p rest ih =>
      obtain ⟨an, a⟩ := p
      simp only [runLoop]
      cases hp : processArray env cfg st an a with
      | error e => simp [hasWrite]
      | ok r => simpa [hasWrite] using ih r.2

theorem npz_to_wct_error (env : Env) (fs : String → Bool) (cfg : Config)
    (arrays : List (String × NDArray)) (e : PyErr)
    (hlr : (runLoop env cfg (initState cfg) arrays).2 = .error e) :
    npz_to_wct env fs cfg arrays =
      ((runLoop env cfg (initState cfg) arrays).1, some e) := by
  simp only [npz_to_wct, hlr]

/-- C6: a comma-separated channel specification whose parsed length differs
from the stacked array's row count makes the run fail with the parameter
error naming both counts, and no archive is written. -/
theorem C6_comma_length_mismatch (env : Env) (fs : String → Bool)
    (cfg : Config) (aname : String) (a : NDArray)
    (d : List (List (List ℚ))) (rest : List (String × NDArray)) (s : String)
    (heff : effArr cfg.transpose a = .d3 d)
    (hchan : cfg.channels = some s)
    (hcomma : pyHasChar s ',' = true)
    (hlen : (env.unitify s).length ≠ (stackPlanes cfg.ranges d).length) :
    (npz_to_wct env fs cfg ((aname, a) :: rest)).2 =
      some (.badParameter ("input array has " ++
        toString (stackPlanes cfg.ranges d).length ++
        " channels but given " ++ toString (env.unitify s).length ++
        " channels")) ∧
    hasWrite (npz_to_wct env fs cfg ((aname, a) :: rest)).1 = false := by
  have hdig : pyIsDigit s = false := by
    unfold pyHasChar at hcomma
    rcases List.any_eq_true.mp hcomma with ⟨c, hc, hcc⟩
    have hc' : c = ',' := by simpa using hcc
    subst hc'
    unfold pyIsDigit
    cases hall : s.data.all Char.isDigit with
    | false => simp
    | true =>
        have := List.all_eq_true.mp hall _ hc
        exact absurd this (by decide)
  have hp : processArray env cfg (initState cfg) aname a =
      .error (.badParameter ("input array has " ++
        toString (stackPlanes cfg.ranges d).length ++
        " channels but given " ++ toString (env.unitify s).length ++
        " channels")) := by
    simp only [processArray, heff, initState, hchan, resolveChans, hdig,
      hcomma, Bool.false_eq_true, if_false, if_true, hlen, ne_eq,
      not_false_eq_true]
  have hrun : (runLoop env cfg (initState cfg) ((aname, a) :: rest)).2 =
      .error (.badParameter ("input array has " ++
        toString (stackPlanes cfg.ranges d).length ++
        " channels but given " ++ toString (env.unitify s).length ++
        " channels")) := by
    simp only [runLoop, hp]
  rw [npz_to_wct_error env fs cfg ((aname, a) :: rest) _ hrun]
  exact ⟨rfl, runLoop_no_write env cfg (initState cfg) ((aname, a) :: rest)⟩

/-- Oracle whose units parser always yields two values. -/
def c6Env : Env := ⟨fun _ => [0, 0], fun _ => [], fun _ _ => []⟩

/-- Configuration with a two-element comma channel list for a 1-row frame. -/
def c6Cfg : Config := { w1Cfg with channels := some "1,2" }

theorem C6_comma_length_mismatch_witness :
    (npz_to_wct c6Env (fun _ => true) c6Cfg [("a", .d3 w1D)]).2 =
      some (.badParameter ("input array has " ++
        toString (stackPlanes c6Cfg.ranges w1D).length ++
        " channels but given " ++ toString (c6Env.unitify "1,2").length ++
        " channels")) ∧
    hasWrite (npz_to_wct c6Env (fun _ => true) c6Cfg [("a", .d3 w1D)]).1 =
      false :=
  C6_comma_length_mismatch c6Env (fun _ => true) c6Cfg "a" (.d3 w1D) w1D []
    "1,2" rfl rfl (by decide) (by decide)

/-- C8 (amended): when the output path does not end in ".npz" no archive is
ever written; if the per-array loop succeeded and the directory phase can
pass (non-empty directory part, or one that already exists), the run fails
with the parameter error "unsupported output file type"; and any failure
during per-array processing surfaces that error with no archive written. -/
theorem C8_unsupported_output (env : Env) (fs : String → Bool)
    (cfg : Config) (arrays : List (String × NDArray)) :
    (pyEndsWith cfg.output ".npz" = false →
      hasWrite (npz_to_wct env fs cfg arrays).1 = false) ∧
    (∀ outs, pyEndsWith cfg.output ".npz" = false →
      (runLoop env cfg (initState cfg) arrays).2 = .ok outs →
      (pyDirname cfg.output ≠ "" ∨ pyExists fs (pyDirname cfg.output) = true) →
      (npz_to_wct env fs cfg arrays).2 =
        some (.badParameter ("unsupported output file type: " ++
          cfg.output))) ∧
    (∀ e, (runLoop env cfg (initState cfg) arrays).2 = .error e →
      (npz_to_wct env fs cfg arrays).2 = some e ∧
      hasWrite (npz_to_wct env fs cfg arrays).1 = false) := by
  have hnw := runLoop_no_write env cfg (initState cfg) arrays
  refine ⟨?_, ?_, ?_⟩
  · intro hext
    cases hlr : (runLoop env cfg (initState cfg) arrays).2 with
    | error e =>
        rw [npz_to_wct_error env fs cfg arrays e hlr]
        exact hnw
    | ok outs =>
        simp only [npz_to_wct, hlr]
        by_cases hex : pyExists fs (pyDirname cfg.output) = true
        · simp only [hex, if_true, hext, Bool.false_eq_true, if_false]
          simpa [hasWrite, List.any_append] using hnw
        · simp only [hex, if_false, Bool.false_eq_true]
          by_cases hdd : pyDirname cfg.output = ""
          · simp only [pyMakedirs, hdd, if_true]
            simpa [hasWrite, List.any_append] using hnw
          · simp only [pyMakedirs, hdd, if_false, hext, Bool.false_eq_true]
            simpa [hasWrite, List.any_append] using hnw
  · intro outs hext hlr hdir
    simp only [npz_to_wct, hlr]
    by_cases hex : pyExists fs (pyDirname cfg.output) = true
    · simp only [hex, if_true, hext, Bool.false_eq_true, if_false]
    · have hdd : pyDirname cfg.output ≠ "" := by
        rcases hdir with h | h
        · exact h
        · exact absurd h hex
      simp only [hex, if_false, Bool.false_eq_true, pyMakedirs, hdd,
        if_false, hext]
  · intro e hlr
    rw [npz_to_wct_error env fs cfg arrays e hlr]
    exact ⟨rfl, hnw⟩

/-- Configuration with a non-archive output path in a fresh directory. -/
def c8Cfg : Config := { w1Cfg with output := "d/out.txt" }

theorem C8_unsupported_output_witness :
    (npz_to_wct trivEnv (fun _ => true) c8Cfg []).2 =
      some (.badParameter ("unsupported output file type: " ++
        c8Cfg.output)) :=
  (C8_unsupported_output trivEnv (fun _ => true) c8Cfg []).2.1 [] (by decide)
    rfl (Or.inl (by decide))

/-- Configuration with a bare non-archive output filename. -/
def c8BareCfg : Config := { w1Cfg with output := "out.txt" }

theorem C8_counterexample :
    ((npz_to_wct trivEnv (fun _ => false) c8BareCfg
        [("a", .d3 w1D)]).2.map PyErr.isBadParam) = some false := by
  decide

/-- C10: an output path with no directory component makes the run raise
`FileNotFoundError` at `os.makedirs` and write no archive, even when all
per-array processing succeeded. -/
theorem C10_bare_output_dir_error (env : Env) (fs : String → Bool)
    (cfg : Config) (arrays : List (String × NDArray))
    (outs : List (String × OutVal))
    (hd : pyDirname cfg.output = "")
    (hok : (runLoop env cfg (initState cfg) arrays).2 = .ok outs) :
    (npz_to_wct env fs cfg arrays).2 = some (.fileNotFound "") ∧
    hasWrite (npz_to_wct env fs cfg arrays).1 = false := by
  have hnw := runLoop_no_write env cfg (initState cfg) arrays
  have hex : pyExists fs "" = false := rfl
  refine ⟨?_, ?_⟩
  · simp [npz_to_wct, hok, hd, hex, pyMakedirs]
  · simp only [npz_to_wct, hok, hd, hex, Bool.false_eq_true, if_false,
      pyMakedirs, if_pos rfl]
    simpa [hasWrite, List.any_append] using hnw

/-- Configuration writing to a bare `.npz` filename. -/
def c10Cfg : Config := { w1Cfg with output := "out.npz" }

theorem C10_bare_output_dir_error_witness :
    (npz_to_wct trivEnv (fun _ => true) c10Cfg []).2 =
      some (.fileNotFound "") ∧
    hasWrite (npz_to_wct trivEnv (fun _ => true) c10Cfg []).1 = false :=
  C10_bare_output_dir_error trivEnv (fun _ => true) c10Cfg [] [] (by decide)
    rfl
